import Mathlib

/-!
Verification of the permission-normalization logic of the
github-rest-dynamic-controller-plugin web service.

The development shallowly embeds the Go source.  JSON documents decoded by
Go json.Unmarshal into map from string to interface are modelled by the
inductive type Json below, with objects as association lists whose keys are
unique in the sense of Go maps: lookupField returns the first binding and
setField replaces in place, so the list behaves exactly like a map under
the lookup, set and remove operations that the source performs.

Upstream HTTP exchanges are modelled by an environment value per outbound
call: either a transport error (client.Do returning an error) or a
response carrying a status code, the status line text and the body.  A
body is a pair of the raw bytes and the result of decoding them as JSON
(the decoding oracle); handlers echo the raw bytes where the source
forwards bytes and work on the decoded value where the source unmarshals.
-/

set_option maxHeartbeats 1000000

/-- A decoded JSON value, as produced by Go json.Unmarshal into an empty
interface: null, booleans, numbers, strings, arrays and objects. Numbers
are modelled as integers; none of the verified code inspects numeric
values beyond copying them. -/
inductive Json where
  | null : Json
  | bool : Bool → Json
  | num : Int → Json
  | str : String → Json
  | arr : List Json → Json
  | obj : List (String × Json) → Json

/-- Lookup of a key in a JSON object field list (Go map indexing). -/
def lookupField : List (String × Json) → String → Option Json
  | [], _ => none
  | (k, v) :: rest, key => if k = key then some v else lookupField rest key

/-- Setting a key in a JSON object field list (Go map assignment): the
first binding of the key is replaced in place, otherwise the binding is
appended. -/
def setField : List (String × Json) → String → Json → List (String × Json)
  | [], key, v => [(key, v)]
  | (k, w) :: rest, key, v =>
      if k = key then (key, v) :: rest else (k, w) :: setField rest key v

/-- Removing a key from a JSON object field list (Go delete). -/
def removeField : List (String × Json) → String → List (String × Json)
  | [], _ => []
  | (k, v) :: rest, key =>
      if k = key then removeField rest key else (k, v) :: removeField rest key

/-- Lowercasing of a string character by character; auxiliary for the
model of Go strings.EqualFold. -/
def lowerString (s : String) : String := String.mk (s.toList.map Char.toLower)

/-- Go strings.EqualFold, modelled as comparison after simple case
folding; this matches EqualFold on the ASCII usernames and role names the
service compares. -/
def eqFold (a b : String) : Bool := lowerString a == lowerString b

/-- Go fmt Sprintf with verb s applied to a decoded JSON value, as used
for the permission placed in the injected message strings.  Every theorem
below instantiates it at string values, where Go prints the string itself;
for the remaining decoded shapes (never exercised here) Go would print a
reflective rendering, represented by a fixed placeholder. -/
def goSprintS : Json → String
  | Json.str s => s
  | _ => "%!s"

/-- Field mapping of internal/utils/flatten.go: a dotted source path and a
root target key. -/
structure FieldMapping where
  SourcePath : String
  TargetKey : String

/-- Splitting of a character list at every dot; auxiliary for splitPath. -/
def splitCharsOnDot : List Char → List String
  | [] => [""]
  | c :: rest =>
      let r := splitCharsOnDot rest
      if c = '.' then "" :: r
      else
        match r with
        | [] => [String.mk [c]]
        | s :: ss => String.mk (c :: s.toList) :: ss

/-- Splitting of a dotted path, Go strings.Split with the single-character
separator dot (all paths in the source are ASCII). -/
def splitPath (path : String) : List String := splitCharsOnDot path.toList

/-- The extractValue method of ResponseFlattener in
internal/utils/flatten.go: walks the parts of a dotted path through nested
objects; the last part returns the value, a missing key or a non-object at
an intermediate part is an error, and an empty part list falls through to
the invalid-path error. -/
def extractValue (data : List (String × Json)) :
    List String → Except String Json
  | [] => Except.error "invalid path"
  | [part] =>
      match lookupField data part with
      | some value => Except.ok value
      | none => Except.error ("field " ++ part ++ " not found")
  | part :: rest =>
      match lookupField data part with
      | none => Except.error ("field " ++ part ++ " not found in path")
      | some next =>
          match next with
          | Json.obj nextMap => extractValue nextMap rest
          | _ => Except.error ("field " ++ part ++ " is not an object in path")

/-- The mapping loop of FlattenBytes: each mapping resolves its source path
against the ORIGINAL data and writes the value at its target key in the
accumulator; the first failing extraction aborts the whole call. -/
def applyMappings (data : List (String × Json)) :
    List (String × Json) → List FieldMapping →
    Except String (List (String × Json))
  | flattened, [] => Except.ok flattened
  | flattened, m :: ms =>
      match extractValue data (splitPath m.SourcePath) with
      | Except.error e =>
          Except.error ("failed to extract " ++ m.SourcePath ++ ": " ++ e)
      | Except.ok value =>
          applyMappings data (setField flattened m.TargetKey value) ms

/-- FlattenBytes of internal/utils/flatten.go: unmarshal the body, start
from a copy of the original root object and apply every mapping in order.
The Go function takes bytes; the model works on the decoded value, with a
non-object value standing for a body that does not decode into a map. -/
def FlattenBytes (mappings : List FieldMapping) (body : Json) :
    Except String Json :=
  match body with
  | Json.obj data => (applyMappings data data mappings).map Json.obj
  | _ => Except.error "failed to unmarshal response"

/-- The last mapping of the list whose target is the given key, if any;
used to state the last-mapping-wins clause of the flattener contract. -/
def lastMappingFor : List FieldMapping → String → Option FieldMapping
  | [], _ => none
  | m :: ms, key =>
      match lastMappingFor ms key with
      | some m1 => some m1
      | none => if m.TargetKey = key then some m else none

/-- The flattener for GitHub user permission responses configured in
internal/handlers/repo/support.go: nested user fields are brought to the
root. -/
def GitHubUserPermissionFlattener : List FieldMapping :=
  [⟨"user.permissions", "permissions"⟩,
   ⟨"user.html_url", "html_url"⟩,
   ⟨"user.id", "id"⟩]

/-- FlattenGitHubUserPermissionBytes of
internal/handlers/repo/support.go. -/
def FlattenGitHubUserPermissionBytes (body : Json) : Except String Json :=
  FlattenBytes GitHubUserPermissionFlattener body

/-- Translation table of CorrectGitHubUserPermissionField in
internal/handlers/repo/support.go: the switch on the role name. -/
def translateRoleName (roleName : String) : String :=
  if roleName = "read" then "pull"
  else if roleName = "write" then "push"
  else if roleName = "admin" then "admin"
  else if roleName = "maintain" then "maintain"
  else if roleName = "triage" then "triage"
  else roleName

/-- CorrectGitHubUserPermissionField of
internal/handlers/repo/support.go: reads the root role_name field and, when
it is a string, rewrites the root permission field through the translation
switch; a missing or non-string role_name, or an empty translated
permission, returns the body unchanged.  The Go function takes bytes and
unmarshals them into a map; the model works on the decoded value, with a
non-object value standing for a body that does not decode into a map. -/
def CorrectGitHubUserPermissionField (body : Json) : Except String Json :=
  match body with
  | Json.obj data =>
      match lookupField data "role_name" with
      | some (Json.str roleName) =>
          let permission := translateRoleName roleName
          if permission = "" then Except.ok body
          else Except.ok (Json.obj (setField data "permission"
            (Json.str permission)))
      | _ => Except.ok body
  | _ => Except.error "failed to unmarshal response"

/-- The switch of CorrectGitHubUserPermissionsFieldReqBody: the reverse
translation applied before writing an invitation-update request body. -/
def translatePermissionReverse (permission : String) : String :=
  if permission = "pull" then "read"
  else if permission = "push" then "write"
  else if permission = "admin" then "admin"
  else if permission = "maintain" then "maintain"
  else if permission = "triage" then "triage"
  else permission

/-- CorrectGitHubUserPermissionsFieldReqBody of the collaborator package:
when the root permission field is a string, a permissions field is written
with the reverse-translated value and the permission field is deleted; a
missing or non-string permission returns the body unchanged. -/
def CorrectGitHubUserPermissionsFieldReqBody (body : Json) :
    Except String Json :=
  match body with
  | Json.obj data =>
      match lookupField data "permission" with
      | some (Json.str permission) =>
          let permissions := translatePermissionReverse permission
          let data1 := setField data "permissions" (Json.str permissions)
          Except.ok (Json.obj (removeField data1 "permission"))
      | _ => Except.ok body
  | _ => Except.error "failed to unmarshal request body"

/-- ReadFieldFromBody of the collaborator package: unmarshal the body and
return the root field, an error if the field does not exist.  The model
works on the decoded value, with a non-object value standing for bytes
that do not decode into a map. -/
def ReadFieldFromBody (body : Json) (fieldName : String) :
    Except String Json :=
  match body with
  | Json.obj data =>
      match lookupField data fieldName with
      | some value => Except.ok value
      | none => Except.error ("field " ++ fieldName ++ " not found")
  | _ => Except.error "failed to unmarshal response"

/-- AddFieldToResponse of the collaborator package: set one root field and
re-serialize. -/
def AddFieldToResponse (body : Json) (fieldName : String) (value : Json) :
    Except String Json :=
  match body with
  | Json.obj data => Except.ok (Json.obj (setField data fieldName value))
  | _ => Except.error "failed to unmarshal response"

/-- A GitHub repository invitation, keeping the fields the verified logic
reads: the identifier, the invitee login used for the case-insensitive
match, and the permissions string. -/
structure Invitation where
  id : Int
  inviteeLogin : String
  permissions : String
deriving DecidableEq

/-- The body of one page of the upstream invitations listing: either bytes
that do not parse as a list of invitations, or the parsed records. -/
inductive PageBody where
  | malformed : PageBody
  | invites : List Invitation → PageBody
deriving DecidableEq

/-- Outcome of one page fetch of the invitations listing. -/
inductive PageOutcome where
  | transportErr : String → PageOutcome
  | resp : Nat → PageBody → PageOutcome
deriving DecidableEq

/-- Result of the invitation search: a hard error carrying the cause, a
clean not-found, a found invitation, or exhaustion of the supplied page
sequence (the loop would have fetched a further page; the environment is
underdetermined there and no claim depends on it). -/
inductive LocateResult where
  | hardErr : String → LocateResult
  | notFound : LocateResult
  | found : Invitation → LocateResult
  | outOfPages : LocateResult
deriving DecidableEq

/-- The fixed page size of findUserInvitation. -/
def perPage : Nat := 30

/-- getUserInvitationFromPage of internal/handlers/repo/support.go: parse
the page (a parse failure reads as no match) and return the first
invitation whose invitee login matches the username case-insensitively. -/
def getUserInvitationFromPage (body : PageBody) (username : String) :
    Option Invitation :=
  match body with
  | PageBody.malformed => none
  | PageBody.invites xs =>
      xs.find? (fun inv => eqFold inv.inviteeLogin username)

/-- findUserInvitation of internal/handlers/repo/repo.go (identical to
findUserInvitationHelper of the collaborator package): pages are fetched
in order starting at page one; a transport error propagates as a hard
error, a non-200 status reads as not found and stops, a matching invitee
returns immediately, a page that re-parses with an error propagates as a
hard error, a short page (fewer than perPage records) stops with not
found, and otherwise the next page is fetched.  The returned number counts
the page fetches performed. -/
def findUserInvitation (username : String) :
    List PageOutcome → LocateResult × Nat
  | [] => (LocateResult.outOfPages, 0)
  | p :: rest =>
      match p with
      | PageOutcome.transportErr msg => (LocateResult.hardErr msg, 1)
      | PageOutcome.resp status body =>
          if status ≠ 200 then (LocateResult.notFound, 1)
          else
            match getUserInvitationFromPage body username with
            | some inv => (LocateResult.found inv, 1)
            | none =>
                match body with
                | PageBody.malformed =>
                    (LocateResult.hardErr "failed to parse invitations", 1)
                | PageBody.invites xs =>
                    if xs.length < perPage then (LocateResult.notFound, 1)
                    else
                      let r := findUserInvitation username rest
                      (r.1, r.2 + 1)

/-- A successful 200 invitations page with the given records. -/
def okPage (xs : List Invitation) : PageOutcome :=
  PageOutcome.resp 200 (PageBody.invites xs)

/-- The raw bytes of an upstream body together with the result of decoding
them as a JSON value (none when the bytes do not decode). -/
structure UpstreamBody where
  raw : String
  decoded : Option Json

/-- Outcome of one outbound HTTP call: a transport error from client.Do,
or a response with its status code, status line text and body. -/
inductive UpstreamOutcome where
  | transportErr : String → UpstreamOutcome
  | resp : Nat → String → UpstreamBody → UpstreamOutcome

/-- Body of a response written by a handler: no body, literal text bytes,
or a marshalled JSON document (represented by its decoded value; Go
serializes it with sorted keys). -/
inductive HttpBody where
  | empty : HttpBody
  | text : String → HttpBody
  | jsonDoc : Json → HttpBody

/-- A response written by a handler: the status code and the body. -/
structure HttpResponse where
  status : Nat
  body : HttpBody

/-- The tri-state collaborator status of the collaborator package. -/
inductive CollaboratorStatus where
  | statusNotCollaborator : CollaboratorStatus
  | statusCollaborator : CollaboratorStatus
  | statusPendingInvitation : CollaboratorStatus
deriving DecidableEq

/-- checkCollaboratorStatus of the collaborator package: the upstream
is-collaborator probe mapped to the tri-state status with an optional
error: a transport failure and an unexpected status code carry an error,
no-content reads as collaborator, not-found as not a collaborator. -/
def checkCollaboratorStatus :
    UpstreamOutcome → CollaboratorStatus × Option String
  | UpstreamOutcome.transportErr msg =>
      (CollaboratorStatus.statusNotCollaborator,
        some ("failed to execute request: " ++ msg))
  | UpstreamOutcome.resp status _ _ =>
      if status = 204 then (CollaboratorStatus.statusCollaborator, none)
      else if status = 404 then
        (CollaboratorStatus.statusNotCollaborator, none)
      else
        (CollaboratorStatus.statusNotCollaborator,
          some ("unexpected status code: " ++ toString status))

/-- processPermissionResponse of the collaborator package getHandler: the
normalization pipeline of a fetched permission body — flatten the nested
user fields to the root, correct the permission field from role_name, read
the corrected permission and inject the message field. -/
def processPermissionResponse (body : Json) (owner repo : String) :
    Except String Json :=
  match FlattenGitHubUserPermissionBytes body with
  | Except.error e => Except.error ("failed to flatten response: " ++ e)
  | Except.ok flattenedBody =>
      match CorrectGitHubUserPermissionField flattenedBody with
      | Except.error e =>
          Except.error ("failed to correct permission field: " ++ e)
      | Except.ok correctedBody =>
          match ReadFieldFromBody correctedBody "permission" with
          | Except.error e =>
              Except.error ("failed to read permission: " ++ e)
          | Except.ok permission =>
              match AddFieldToResponse correctedBody "message" (Json.str
                ("User is a collaborator of the repository " ++ owner ++
                  "/" ++ repo ++ " with permission " ++
                  goSprintS permission)) with
              | Except.error e =>
                  Except.error ("failed to add message field: " ++ e)
              | Except.ok finalBody => Except.ok finalBody

/-- Environment of one GET collaborator-permission request: the outcome of
the is-collaborator probe and of the permission sub-resource fetch. -/
structure GetEnv where
  collabCheck : UpstreamOutcome
  permFetch : UpstreamOutcome

/-- ServeHTTP of the collaborator package getHandler: resolve the
collaborator status (an error from the check answers 500), answer 404 when
the user is not a collaborator, and otherwise fetch the permission
sub-resource and answer 200 — with the normalized body when the pipeline
succeeds, with the original upstream bytes when it fails. -/
def collabGetServe (owner repo username : String) (env : GetEnv) :
    HttpResponse :=
  match checkCollaboratorStatus env.collabCheck with
  | (status, err) =>
      match err with
      | some e =>
          ⟨500, HttpBody.text ("Error checking collaborator status: " ++ e)⟩
      | none =>
          if status ≠ CollaboratorStatus.statusCollaborator then
            ⟨404, HttpBody.text ("User is not a collaborator of the " ++
              "repository or the user does not exist")⟩
          else
            match env.permFetch with
            | UpstreamOutcome.transportErr msg =>
                ⟨500, HttpBody.text ("Error getting user permission: " ++
                  "failed to execute request: " ++ msg)⟩
            | UpstreamOutcome.resp _ _ body =>
                match body.decoded with
                | some bodyJson =>
                    match processPermissionResponse bodyJson owner repo with
                    | Except.ok processed => ⟨200, HttpBody.jsonDoc processed⟩
                    | Except.error _ => ⟨200, HttpBody.text body.raw⟩
                | none => ⟨200, HttpBody.text body.raw⟩

/-- ServeHTTP of the repo package postHandler
(internal/handlers/repo/repo.go): read the permission from the request
body (400 on failure), forward the body as an upstream PUT, then map the
upstream answer: created becomes 202 with an injected message, no-content
becomes a bare 204, anything else forwards the upstream status with the
upstream body when non-empty and a textual error naming the status line
when empty.  The request body is the decoded value, none when the bytes do
not decode. -/
def repoPostServe (owner repo username : String) (reqBody : Option Json)
    (upstream : UpstreamOutcome) : HttpResponse :=
  match reqBody with
  | none =>
      ⟨400, HttpBody.text ("Error reading permission from request body: " ++
        "failed to unmarshal response")⟩
  | some bodyJson =>
      match ReadFieldFromBody bodyJson "permission" with
      | Except.error e =>
          ⟨400, HttpBody.text
            ("Error reading permission from request body: " ++ e)⟩
      | Except.ok permissionToBeGranted =>
          match upstream with
          | UpstreamOutcome.transportErr msg =>
              ⟨500, HttpBody.text ("Error calling GitHub API: " ++ msg)⟩
          | UpstreamOutcome.resp status statusLine body =>
              if status = 201 then
                match AddFieldToResponse (Json.obj []) "message" (Json.str
                  ("Invitation sent to user " ++ username ++
                    " for repository " ++ owner ++ "/" ++ repo ++
                    " with permission " ++
                    goSprintS permissionToBeGranted)) with
                | Except.ok finalBody => ⟨202, HttpBody.jsonDoc finalBody⟩
                | Except.error e =>
                    ⟨500, HttpBody.text ("Error adding message field: " ++ e)⟩
              else if status = 204 then ⟨204, HttpBody.empty⟩
              else
                ⟨status,
                  if body.raw.length > 0 then HttpBody.text body.raw
                  else HttpBody.text ("Error: " ++ statusLine)⟩

/-- Environment of one PATCH collaborator request: the outcomes of the
is-collaborator probe, of the collaborator update PUT, of the invitation
page fetches and of the invitation update PATCH. -/
structure PatchEnv where
  collabCheck : UpstreamOutcome
  updateResp : UpstreamOutcome
  invitePages : List PageOutcome
  inviteUpdateResp : UpstreamOutcome

/-- ServeHTTP of the repo package patchHandler
(internal/handlers/repo/repo.go): read the permission from the request
body (500 on failure), probe the collaborator status; a no-content probe
updates the collaborator through an upstream PUT (no-content answers 200
with a message, anything else forwards), any other probe status searches
the pending invitations: a hard search error answers 500, no invitation
answers 404 with a message, and a found invitation has the request body
reverse-translated and PATCHed upstream (200 answers 202 with a message,
anything else forwards).  The result is none only when the supplied page
sequence is exhausted by the search loop. -/
def repoPatchServe (owner repo username : String) (reqBody : Option Json)
    (env : PatchEnv) : Option HttpResponse :=
  match reqBody with
  | none =>
      some ⟨500, HttpBody.text ("Error reading permission from request " ++
        "body: failed to unmarshal response")⟩
  | some bodyJson =>
      match ReadFieldFromBody bodyJson "permission" with
      | Except.error e =>
          some ⟨500, HttpBody.text
            ("Error reading permission from request body: " ++ e)⟩
      | Except.ok permissionToBeGranted =>
          match env.collabCheck with
          | UpstreamOutcome.transportErr msg =>
              some ⟨500, HttpBody.text
                ("Error checking collaborator status: " ++ msg)⟩
          | UpstreamOutcome.resp checkStatus _ _ =>
              if checkStatus = 204 then
                match env.updateResp with
                | UpstreamOutcome.transportErr msg =>
                    some ⟨500, HttpBody.text
                      ("Error updating permission: " ++ msg)⟩
                | UpstreamOutcome.resp updStatus updLine updBody =>
                    if updStatus = 204 then
                      match AddFieldToResponse (Json.obj []) "message"
                        (Json.str ("Permission updated successfully for " ++
                          "collaborator " ++ username ++ " with permission " ++
                          goSprintS permissionToBeGranted)) with
                      | Except.ok finalBody =>
                          some ⟨200, HttpBody.jsonDoc finalBody⟩
                      | Except.error e =>
                          some ⟨500, HttpBody.text
                            ("Error adding message field: " ++ e)⟩
                    else
                      some ⟨updStatus,
                        if updBody.raw.length > 0 then
                          HttpBody.text updBody.raw
                        else HttpBody.text ("Error: " ++ updLine)⟩
              else
                match findUserInvitation username env.invitePages with
                | (LocateResult.outOfPages, _) => none
                | (LocateResult.hardErr msg, _) =>
                    some ⟨500, HttpBody.text
                      ("Error checking invitations: " ++ msg)⟩
                | (LocateResult.notFound, _) =>
                    match AddFieldToResponse (Json.obj []) "message"
                      (Json.str ("User " ++ username ++ " is not a " ++
                        "collaborator and has no pending invitation")) with
                    | Except.ok finalBody =>
                        some ⟨404, HttpBody.jsonDoc finalBody⟩
                    | Except.error _ =>
                        some ⟨404, HttpBody.text ("User " ++ username ++
                          " not found as collaborator or invitee")⟩
                | (LocateResult.found _, _) =>
                    match CorrectGitHubUserPermissionsFieldReqBody bodyJson with
                    | Except.error e =>
                        some ⟨500, HttpBody.text
                          ("Error creating invitation update request: " ++ e)⟩
                    | Except.ok _ =>
                        match env.inviteUpdateResp with
                        | UpstreamOutcome.transportErr msg =>
                            some ⟨500, HttpBody.text
                              ("Error updating invitation: " ++ msg)⟩
                        | UpstreamOutcome.resp invStatus invLine invBody =>
                            if invStatus = 200 then
                              match AddFieldToResponse (Json.obj []) "message"
                                (Json.str ("Invitation permission updated " ++
                                  "successfully for user " ++ username ++
                                  " with permission " ++
                                  goSprintS permissionToBeGranted)) with
                              | Except.ok finalBody =>
                                  some ⟨202, HttpBody.jsonDoc finalBody⟩
                              | Except.error e =>
                                  some ⟨500, HttpBody.text
                                    ("Error adding message field: " ++ e)⟩
                            else
                              some ⟨invStatus,
                                if invBody.raw.length > 0 then
                                  HttpBody.text invBody.raw
                                else HttpBody.text ("Error: " ++ invLine)⟩

/-- The body rewrite of the teamRepo handler on a 200 upstream response:
remove the original permissions and owner root keys, set owner to the
path-supplied owner and derive the root permission from role_name with a
case-insensitive comparison (EqualFold) against read and write. -/
def teamRepoRewrite (data : List (String × Json)) (owner roleName : String) :
    Json :=
  let d1 := removeField (removeField data "permissions") "owner"
  let d2 := setField d1 "owner" (Json.str owner)
  let permission :=
    if eqFold roleName "read" then "pull"
    else if eqFold roleName "write" then "push"
    else roleName
  Json.obj (setField d2 "permission" (Json.str permission))

/-- ServeHTTP of the teamRepo handler: forward the upstream GET; on a
non-200 status the upstream status is forwarded and http.Error echoes the
upstream body followed by a newline; on 200 the body is rewritten by
teamRepoRewrite (role_name decoded as the zero value, the empty string,
when absent).  The result is none for the paths the Go code leaves broken
and the model does not cover: a transport error (the handler writes an
error text and then dereferences the nil response) and a 200 body that is
not an object with an absent-or-string role_name (the handler writes a
decode error and keeps writing). -/
def teamRepoServe (owner : String) (upstream : UpstreamOutcome) :
    Option HttpResponse :=
  match upstream with
  | UpstreamOutcome.transportErr _ => none
  | UpstreamOutcome.resp status _ body =>
      if status ≠ 200 then
        some ⟨status, HttpBody.text (body.raw ++ "\n")⟩
      else
        match body.decoded with
        | some (Json.obj data) =>
            match lookupField data "role_name" with
            | some (Json.str roleName) =>
                some ⟨200, HttpBody.jsonDoc (teamRepoRewrite data owner
                  roleName)⟩
            | none =>
                some ⟨200, HttpBody.jsonDoc (teamRepoRewrite data owner "")⟩
            | some _ => none
        | _ => none

/-!
Theorems.  Each claim of the specification is settled by one theorem,
preceded by supporting lemmas where needed.
-/

theorem lookupField_setField_self (fs : List (String × Json)) (k : String)
    (v : Json) : lookupField (setField fs k v) k = some v := by
  induction fs with
  | nil => simp [setField, lookupField]
  | cons hd tl ih =>
      obtain ⟨k1, v1⟩ := hd
      by_cases hk : k1 = k
      · simp [setField, hk, lookupField]
      · simp [setField, hk, lookupField, ih]

theorem lookupField_setField_other (fs : List (String × Json)) (k k1 : String)
    (v : Json) (hne : k1 ≠ k) :
    lookupField (setField fs k v) k1 = lookupField fs k1 := by
  have hkk1 : k ≠ k1 := fun h => hne h.symm
  induction fs with
  | nil => simp [setField, lookupField, hkk1]
  | cons hd tl ih =>
      obtain ⟨k2, v2⟩ := hd
      by_cases hk : k2 = k
      · subst hk
        simp [setField, lookupField, hkk1]
      · by_cases hk1 : k2 = k1
        · simp [setField, hk, lookupField, hk1, hne]
        · simp [setField, hk, lookupField, hk1, ih]

theorem lookupField_removeField_self (fs : List (String × Json)) (k : String) :
    lookupField (removeField fs k) k = none := by
  induction fs with
  | nil => simp [removeField, lookupField]
  | cons hd tl ih =>
      obtain ⟨k1, v1⟩ := hd
      by_cases hk : k1 = k
      · simpa [removeField, hk] using ih
      · simpa [removeField, hk, lookupField, hk] using ih

theorem lookupField_removeField_other (fs : List (String × Json))
    (k k1 : String) (hne : k1 ≠ k) :
    lookupField (removeField fs k) k1 = lookupField fs k1 := by
  induction fs with
  | nil => simp [removeField, lookupField]
  | cons hd tl ih =>
      obtain ⟨k2, v2⟩ := hd
      by_cases hk : k2 = k
      · subst hk
        have hne2 : k2 ≠ k1 := fun h => hne h.symm
        simpa [removeField, lookupField, hne2] using ih
      · by_cases hk1 : k2 = k1
        · simp [removeField, hk, lookupField, hk1, hne]
        · simpa [removeField, hk, lookupField, hk1] using ih

theorem translateRoleName_eq (r : String) :
    translateRoleName r =
      if r = "read" then "pull" else if r = "write" then "push" else r := by
  unfold translateRoleName
  by_cases h1 : r = "read"
  · simp [h1]
  · by_cases h2 : r = "write"
    · simp [h1, h2]
    · by_cases h3 : r = "admin"
      · simp [h1, h2, h3]
      · by_cases h4 : r = "maintain"
        · simp [h1, h2, h3, h4]
        · by_cases h5 : r = "triage"
          · simp [h1, h2, h3, h4, h5]
          · simp [h1, h2, h3, h4, h5]

theorem translateRoleName_ne_empty (r : String) (h : r ≠ "") :
    translateRoleName r ≠ "" := by
  rw [translateRoleName_eq]
  by_cases h1 : r = "read"
  · simp [h1]
  · by_cases h2 : r = "write"
    · simp [h1, h2]
    · simp [h1, h2, h]

/-- C1: for a body whose root role_name is a non-empty string, the
translator sets the root permission field following the table (read to
pull, write to push, any other value passed through unchanged) and leaves
every other field intact.  The original claim fails at the empty string:
see the counterexample below. -/
theorem C1_translator (data : List (String × Json)) (r : String)
    (hr : lookupField data "role_name" = some (Json.str r)) (hne : r ≠ "") :
    ∃ out, CorrectGitHubUserPermissionField (Json.obj data) =
        Except.ok (Json.obj out) ∧
      lookupField out "permission" = some (Json.str
        (if r = "read" then "pull" else if r = "write" then "push" else r)) ∧
      (∀ k, k ≠ "permission" → lookupField out k = lookupField data k) := by
  refine ⟨setField data "permission" (Json.str (translateRoleName r)),
    ?_, ?_, ?_⟩
  · simp only [CorrectGitHubUserPermissionField, hr]
    simp [translateRoleName_ne_empty r hne]
  · rw [lookupField_setField_self, translateRoleName_eq]
  · intro k hk
    exact lookupField_setField_other data "permission" k _ hk

/-- C1 counterexample: with role_name equal to the empty string the code
returns the body unchanged, with no permission field injected, whereas the
claim requires the permission field to be set to that same (empty) string
value. -/
theorem C1_counterexample :
    CorrectGitHubUserPermissionField (Json.obj [("role_name", Json.str "")]) =
      Except.ok (Json.obj [("role_name", Json.str "")]) ∧
    lookupField [("role_name", Json.str "")] "permission" = none := by
  exact ⟨rfl, rfl⟩

/-- C1 witness: concrete run of the translator theorem on a body carrying
role_name maintain plus an unrelated field. -/
theorem C1_translator_witness :
    ∃ out, CorrectGitHubUserPermissionField
        (Json.obj [("role_name", Json.str "maintain"), ("id", Json.num 7)]) =
        Except.ok (Json.obj out) ∧
      lookupField out "permission" = some (Json.str
        (if "maintain" = "read" then "pull"
         else if "maintain" = "write" then "push" else "maintain")) ∧
      (∀ k, k ≠ "permission" →
        lookupField out k =
          lookupField [("role_name", Json.str "maintain"), ("id", Json.num 7)] k) :=
  C1_translator [("role_name", Json.str "maintain"), ("id", Json.num 7)]
    "maintain" (by rfl) (by decide)

theorem applyMappings_lookup (data : List (String × Json))
    (ms : List FieldMapping) :
    ∀ flattened out, applyMappings data flattened ms = Except.ok out →
      ∀ k, (lastMappingFor ms k = none →
              lookupField out k = lookupField flattened k) ∧
        (∀ m, lastMappingFor ms k = some m →
          ∃ v, extractValue data (splitPath m.SourcePath) = Except.ok v ∧
            lookupField out k = some v) := by
  induction ms with
  | nil =>
      intro flattened out hok k
      simp only [applyMappings] at hok
      cases hok
      exact ⟨fun _ => rfl, fun m hm => by simp [lastMappingFor] at hm⟩
  | cons m ms ih =>
      intro flattened out hok k
      simp only [applyMappings] at hok
      cases hext : extractValue data (splitPath m.SourcePath) with
      | error e => rw [hext] at hok; exact absurd hok (by simp)
      | ok v =>
          rw [hext] at hok
          have htail := ih (setField flattened m.TargetKey v) out hok k
          constructor
          · intro hnone
            simp only [lastMappingFor] at hnone
            cases htl : lastMappingFor ms k with
            | some m1 => rw [htl] at hnone; exact absurd hnone (by simp)
            | none =>
                rw [htl] at hnone
                have hne : m.TargetKey ≠ k := by
                  intro h; rw [if_pos h] at hnone; exact absurd hnone (by simp)
                rw [htail.1 htl]
                exact lookupField_setField_other _ _ _ _ (fun h => hne h.symm)
          · intro m1 hm1
            simp only [lastMappingFor] at hm1
            cases htl : lastMappingFor ms k with
            | some m2 =>
                rw [htl] at hm1
                simp only [Option.some.injEq] at hm1
                subst hm1
                exact htail.2 m2 htl
            | none =>
                rw [htl] at hm1
                by_cases hT : m.TargetKey = k
                · rw [if_pos hT] at hm1
                  simp only [Option.some.injEq] at hm1
                  subst hm1
                  refine ⟨v, hext, ?_⟩
                  rw [htail.1 htl, ← hT, lookupField_setField_self]
                · rw [if_neg hT] at hm1; exact absurd hm1 (by simp)

theorem applyMappings_error (data : List (String × Json))
    (ms : List FieldMapping) :
    ∀ flattened m, m ∈ ms →
      (∀ v, extractValue data (splitPath m.SourcePath) ≠ Except.ok v) →
      ∃ e, applyMappings data flattened ms = Except.error e := by
  induction ms with
  | nil => intro flattened m hm; exact absurd hm (by simp)
  | cons m0 ms ih =>
      intro flattened m hm hbad
      cases hext : extractValue data (splitPath m0.SourcePath) with
      | error e =>
          exact ⟨"failed to extract " ++ m0.SourcePath ++ ": " ++ e,
            by simp only [applyMappings, hext]⟩
      | ok v =>
          rcases List.mem_cons.mp hm with rfl | hm1
          · exact absurd hext (hbad v)
          · obtain ⟨e, he⟩ := ih (setField flattened m0.TargetKey v) m hm1 hbad
            exact ⟨e, by simp only [applyMappings, hext]; exact he⟩

/-- C4: on a successfully flattened object, every root key not targeted by
any mapping keeps its original value, and every targeted key holds the
value resolved from the source path of the LAST mapping with that target;
and if some mapping fails to resolve (missing key or intermediate
non-object), the whole flatten call returns an error — no incompletely flattened object
is ever produced. -/
theorem C4_flattener (ms : List FieldMapping) (data : List (String × Json)) :
    (∀ out, FlattenBytes ms (Json.obj data) = Except.ok (Json.obj out) →
      ∀ k, (lastMappingFor ms k = none →
              lookupField out k = lookupField data k) ∧
        (∀ m, lastMappingFor ms k = some m →
          ∃ v, extractValue data (splitPath m.SourcePath) = Except.ok v ∧
            lookupField out k = some v)) ∧
    (∀ m, m ∈ ms →
      (∀ v, extractValue data (splitPath m.SourcePath) ≠ Except.ok v) →
      ∃ e, FlattenBytes ms (Json.obj data) = Except.error e) := by
  constructor
  · intro out hok k
    simp only [FlattenBytes] at hok
    cases happ : applyMappings data data ms with
    | error e => rw [happ] at hok; exact absurd hok (by simp [Except.map])
    | ok fl =>
        rw [happ] at hok
        simp only [Except.map, Except.ok.injEq, Json.obj.injEq] at hok
        subst hok
        exact applyMappings_lookup data ms data fl happ k
  · intro m hm hbad
    obtain ⟨e, he⟩ := applyMappings_error data ms data m hm hbad
    exact ⟨e, by simp only [FlattenBytes, he, Except.map]⟩

/-- C4 witness: a concrete flatten with one mapping pulling user.id to the
root, and a concrete failing flatten whose source path is absent. -/
theorem C4_flattener_witness :
    (∃ v, extractValue [("a", Json.num 5),
          ("user", Json.obj [("id", Json.num 7)])] (splitPath "user.id") =
        Except.ok v ∧
      lookupField [("a", Json.num 5),
          ("user", Json.obj [("id", Json.num 7)]), ("id", Json.num 7)] "id" =
        some v) ∧
    (∃ e, FlattenBytes [⟨"user.missing", "id"⟩]
        (Json.obj [("a", Json.num 5),
          ("user", Json.obj [("id", Json.num 7)])]) = Except.error e) := by
  constructor
  · exact (C4_flattener [⟨"user.id", "id"⟩]
      [("a", Json.num 5), ("user", Json.obj [("id", Json.num 7)])]).1
      [("a", Json.num 5), ("user", Json.obj [("id", Json.num 7)]),
        ("id", Json.num 7)] (by rfl) "id" |>.2 ⟨"user.id", "id"⟩ (by rfl)
  · exact (C4_flattener [⟨"user.missing", "id"⟩]
      [("a", Json.num 5), ("user", Json.obj [("id", Json.num 7)])]).2
      ⟨"user.missing", "id"⟩ (by simp)
      (by
        intro v h
        have he : extractValue [("a", Json.num 5),
            ("user", Json.obj [("id", Json.num 7)])]
            (splitPath "user.missing") =
            Except.error "field missing not found" := rfl
        rw [he] at h
        exact Except.noConfusion h)

theorem findUserInvitation_cons_full (u : String) (xs : List Invitation)
    (rest : List PageOutcome) (hfull : 30 ≤ xs.length)
    (hnm : ∀ i ∈ xs, eqFold i.inviteeLogin u = false) :
    findUserInvitation u (okPage xs :: rest) =
      ((findUserInvitation u rest).1, (findUserInvitation u rest).2 + 1) := by
  have hfind : xs.find? (fun inv => eqFold inv.inviteeLogin u) = none :=
    List.find?_eq_none.mpr (fun x hx => by simp [hnm x hx])
  simp [findUserInvitation, okPage, getUserInvitationFromPage, hfind, perPage,
    Nat.not_lt.mpr hfull]

theorem findUserInvitation_cons_short (u : String) (xs : List Invitation)
    (rest : List PageOutcome) (hshort : xs.length < 30)
    (hnm : ∀ i ∈ xs, eqFold i.inviteeLogin u = false) :
    findUserInvitation u (okPage xs :: rest) = (LocateResult.notFound, 1) := by
  have hfind : xs.find? (fun inv => eqFold inv.inviteeLogin u) = none :=
    List.find?_eq_none.mpr (fun x hx => by simp [hnm x hx])
  simp [findUserInvitation, okPage, getUserInvitationFromPage, hfind, perPage,
    hshort]

/-- C5: the locator fetches exactly one page per full, match-free page
plus the final short page and reports not found when no page matches; and
a match on page two is returned after exactly two page fetches, whatever
pages would follow. -/
theorem C5_locator (u : String) :
    (∀ init last, (∀ xs ∈ init, xs.length = 30) →
      last.length < 30 →
      (∀ xs ∈ init, ∀ i ∈ xs, eqFold i.inviteeLogin u = false) →
      (∀ i ∈ last, eqFold i.inviteeLogin u = false) →
      findUserInvitation u ((init ++ [last]).map okPage) =
        (LocateResult.notFound, init.length + 1)) ∧
    (∀ p1 p2 rest inv, p1.length = 30 →
      (∀ i ∈ p1, eqFold i.inviteeLogin u = false) →
      p2.find? (fun i => eqFold i.inviteeLogin u) = some inv →
      findUserInvitation u (okPage p1 :: okPage p2 :: rest) =
        (LocateResult.found inv, 2)) := by
  constructor
  · intro init
    induction init with
    | nil =>
        intro last _ hshort _ hlnm
        simpa using findUserInvitation_cons_short u last [] hshort hlnm
    | cons xs init ih =>
        intro last hfull hshort hnm hlnm
        have h1 : findUserInvitation u ((xs :: init ++ [last]).map okPage) =
            ((findUserInvitation u ((init ++ [last]).map okPage)).1,
             (findUserInvitation u ((init ++ [last]).map okPage)).2 + 1) := by
          simpa using findUserInvitation_cons_full u xs
            ((init ++ [last]).map okPage)
            (by rw [hfull xs (by simp)])
            (hnm xs (by simp))
        rw [h1, ih last (fun ys hy => hfull ys (by simp [hy])) hshort
          (fun ys hy => hnm ys (by simp [hy])) hlnm]
        simp
  · intro p1 p2 rest inv hfull hnm hfind
    have h1 := findUserInvitation_cons_full u p1 (okPage p2 :: rest)
      (by rw [hfull]) hnm
    rw [h1]
    simp [findUserInvitation, okPage, getUserInvitationFromPage, hfind]

/-- C5 witness: one full page of thirty non-matching invitations followed
by an empty page gives not-found after exactly two fetches, and a
case-insensitive match on the second page is returned after exactly two
fetches with a third page present but unread. -/
theorem C5_locator_witness :
    findUserInvitation "bob"
        (([List.replicate 30 ⟨1, "alice", "read"⟩, []]).map okPage) =
      (LocateResult.notFound, 2) ∧
    findUserInvitation "bob"
        (okPage (List.replicate 30 ⟨1, "alice", "read"⟩) ::
          okPage [⟨2, "Bob", "read"⟩] :: [okPage []]) =
      (LocateResult.found ⟨2, "Bob", "read"⟩, 2) := by
  constructor
  · have h := (C5_locator "bob").1 [List.replicate 30 ⟨1, "alice", "read"⟩] []
      (by decide) (by decide) (by decide) (by decide)
    simpa using h
  · exact (C5_locator "bob").2 (List.replicate 30 ⟨1, "alice", "read"⟩)
      [⟨2, "Bob", "read"⟩] [okPage []] ⟨2, "Bob", "read"⟩
      (by rfl) (by decide) (by rfl)

/-- C6: after any number of full match-free pages, a page fetch answering
a non-200 status makes the locator stop with a clean not-found, while a
transport error on the page fetch propagates as a hard error carrying the
cause; and the PATCH orchestrator surfaces a hard locator error as a 500
response. -/
theorem C6_locator_failures (u : String) :
    (∀ pre : List (List Invitation), (∀ xs ∈ pre, 30 ≤ List.length xs ∧
        ∀ i ∈ xs, eqFold i.inviteeLogin u = false) →
      ∀ s body rest, s ≠ 200 →
      findUserInvitation u
          (pre.map okPage ++ PageOutcome.resp s body :: rest) =
        (LocateResult.notFound, pre.length + 1)) ∧
    (∀ pre : List (List Invitation), (∀ xs ∈ pre, 30 ≤ List.length xs ∧
        ∀ i ∈ xs, eqFold i.inviteeLogin u = false) →
      ∀ msg rest,
      findUserInvitation u
          (pre.map okPage ++ PageOutcome.transportErr msg :: rest) =
        (LocateResult.hardErr msg, pre.length + 1)) ∧
    (∀ owner repo bodyJson perm env s line b msg n,
      ReadFieldFromBody bodyJson "permission" = Except.ok perm →
      env.collabCheck = UpstreamOutcome.resp s line b →
      s ≠ 204 →
      findUserInvitation u env.invitePages = (LocateResult.hardErr msg, n) →
      repoPatchServe owner repo u (some bodyJson) env =
        some ⟨500, HttpBody.text ("Error checking invitations: " ++ msg)⟩) := by
  refine ⟨?_, ?_, ?_⟩
  · intro pre
    induction pre with
    | nil =>
        intro _ s body rest hs
        simp [findUserInvitation, hs]
    | cons xs pre ih =>
        intro hpre s body rest hs
        have hx := hpre xs (by simp)
        have h1 := findUserInvitation_cons_full u xs
          (pre.map okPage ++ PageOutcome.resp s body :: rest) hx.1 hx.2
        simp only [List.map_cons, List.cons_append] at h1 ⊢
        rw [h1, ih (fun ys hy => hpre ys (by simp [hy])) s body rest hs]
        simp
  · intro pre
    induction pre with
    | nil =>
        intro _ msg rest
        simp [findUserInvitation]
    | cons xs pre ih =>
        intro hpre msg rest
        have hx := hpre xs (by simp)
        have h1 := findUserInvitation_cons_full u xs
          (pre.map okPage ++ PageOutcome.transportErr msg :: rest) hx.1 hx.2
        simp only [List.map_cons, List.cons_append] at h1 ⊢
        rw [h1, ih (fun ys hy => hpre ys (by simp [hy])) msg rest]
        simp
  · intro owner repo bodyJson perm env s line b msg n hread hcheck hs hfind
    simp [repoPatchServe, hread, hcheck, hs, hfind]

/-- C6 witness: a 403 on the first page gives a clean not-found after one
fetch; a transport error on the second page propagates its cause after two
fetches; and the PATCH orchestrator answers 500 when the locator hits a
transport error. -/
theorem C6_locator_failures_witness :
    findUserInvitation "bob" [PageOutcome.resp 403 PageBody.malformed] =
      (LocateResult.notFound, 1) ∧
    findUserInvitation "bob"
        (okPage (List.replicate 30 ⟨1, "alice", "read"⟩) ::
          [PageOutcome.transportErr "netdown"]) =
      (LocateResult.hardErr "netdown", 2) ∧
    repoPatchServe "krateo" "demo" "bob"
        (some (Json.obj [("permission", Json.str "push")]))
        ⟨UpstreamOutcome.resp 404 "404 Not Found" ⟨"", none⟩,
         UpstreamOutcome.resp 200 "200 OK" ⟨"", none⟩,
         [PageOutcome.transportErr "netdown"],
         UpstreamOutcome.resp 200 "200 OK" ⟨"", none⟩⟩ =
      some ⟨500, HttpBody.text ("Error checking invitations: " ++ "netdown")⟩ := by
  refine ⟨?_, ?_, ?_⟩
  · have h := (C6_locator_failures "bob").1 [] (by decide) 403
      PageBody.malformed [] (by decide)
    simpa using h
  · have h := (C6_locator_failures "bob").2.1
      [List.replicate 30 ⟨1, "alice", "read"⟩] (by decide) "netdown" []
    simpa using h
  · exact (C6_locator_failures "bob").2.2 "krateo" "demo"
      (Json.obj [("permission", Json.str "push")]) (Json.str "push")
      ⟨UpstreamOutcome.resp 404 "404 Not Found" ⟨"", none⟩,
       UpstreamOutcome.resp 200 "200 OK" ⟨"", none⟩,
       [PageOutcome.transportErr "netdown"],
       UpstreamOutcome.resp 200 "200 OK" ⟨"", none⟩⟩
      404 "404 Not Found" ⟨"", none⟩ "netdown" 1
      (by rfl) (by rfl) (by decide) (by rfl)

theorem length_pos_of_ne_empty (s : String) (h : s ≠ "") : 0 < s.length := by
  cases s with
  | mk l =>
      cases l with
      | nil => exact absurd rfl h
      | cons c cs => simp [String.length]

/-- C2: the GET collaborator-permission handler checks the collaborator
status first: a transport error during the check answers 500; a not-found
check answers 404 whatever the permission fetch would return (it is never
consulted); an unexpected check status answers 500; and only a no-content
check reaches the permission sub-resource, whose body is flattened,
translated and message-injected into the 200 response. -/
theorem C2_get_orchestration :
    (∀ owner repo username msg pf,
      ∃ m, collabGetServe owner repo username
          ⟨UpstreamOutcome.transportErr msg, pf⟩ =
        ⟨500, HttpBody.text m⟩) ∧
    (∀ owner repo username line b pf,
      collabGetServe owner repo username
          ⟨UpstreamOutcome.resp 404 line b, pf⟩ =
        ⟨404, HttpBody.text ("User is not a collaborator of the " ++
          "repository or the user does not exist")⟩) ∧
    (∀ owner repo username s line b pf, s ≠ 204 → s ≠ 404 →
      ∃ m, collabGetServe owner repo username
          ⟨UpstreamOutcome.resp s line b, pf⟩ =
        ⟨500, HttpBody.text m⟩) ∧
    (∀ owner repo username cline cb ps pl pb j final,
      pb.decoded = some j →
      processPermissionResponse j owner repo = Except.ok final →
      collabGetServe owner repo username
          ⟨UpstreamOutcome.resp 204 cline cb,
           UpstreamOutcome.resp ps pl pb⟩ =
        ⟨200, HttpBody.jsonDoc final⟩) := by
  refine ⟨?_, ?_, ?_, ?_⟩
  · intro owner repo username msg pf
    exact ⟨_, rfl⟩
  · intro owner repo username line b pf
    rfl
  · intro owner repo username s line b pf hs1 hs2
    exact ⟨"Error checking collaborator status: " ++
        ("unexpected status code: " ++ toString s),
      by simp [collabGetServe, checkCollaboratorStatus, hs1, hs2]⟩
  · intro owner repo username cline cb ps pl pb j final hdec hproc
    simp [collabGetServe, checkCollaboratorStatus, hdec, hproc]

/-- C2 witness: a permission body whose role_name is write is normalized
and served with status 200, next to a concrete unexpected-status check
answering 500. -/
theorem C2_get_orchestration_witness :
    (∃ final, processPermissionResponse
        (Json.obj [("user", Json.obj [("permissions", Json.obj []),
            ("html_url", Json.str "h"), ("id", Json.num 1)]),
          ("role_name", Json.str "write"), ("permission", Json.str "write")])
        "krateo" "demo" = Except.ok final ∧
      collabGetServe "krateo" "demo" "bob"
          ⟨UpstreamOutcome.resp 204 "204 No Content" ⟨"", none⟩,
           UpstreamOutcome.resp 200 "200 OK"
             ⟨"raw", some (Json.obj [("user", Json.obj
                [("permissions", Json.obj []), ("html_url", Json.str "h"),
                 ("id", Json.num 1)]),
               ("role_name", Json.str "write"),
               ("permission", Json.str "write")])⟩⟩ =
        ⟨200, HttpBody.jsonDoc final⟩) ∧
    (∃ m, collabGetServe "krateo" "demo" "bob"
        ⟨UpstreamOutcome.resp 401 "401 Unauthorized" ⟨"", none⟩,
         UpstreamOutcome.resp 200 "200 OK" ⟨"", none⟩⟩ =
      ⟨500, HttpBody.text m⟩) := by
  constructor
  · exact ⟨_, rfl, C2_get_orchestration.2.2.2 "krateo" "demo" "bob"
      "204 No Content" ⟨"", none⟩ 200 "200 OK" _ _ _ rfl rfl⟩
  · exact C2_get_orchestration.2.2.1 "krateo" "demo" "bob" 401
      "401 Unauthorized" ⟨"", none⟩ (UpstreamOutcome.resp 200 "200 OK" ⟨"", none⟩)
      (by decide) (by decide)

theorem translatePermissionReverse_eq (p : String) :
    translatePermissionReverse p =
      if p = "pull" then "read" else if p = "push" then "write" else p := by
  unfold translatePermissionReverse
  by_cases h1 : p = "pull"
  · simp [h1]
  · by_cases h2 : p = "push"
    · simp [h1, h2]
    · by_cases h3 : p = "admin"
      · simp [h1, h2, h3]
      · by_cases h4 : p = "maintain"
        · simp [h1, h2, h3, h4]
        · by_cases h5 : p = "triage"
          · simp [h1, h2, h3, h4, h5]
          · simp [h1, h2, h3, h4, h5]

/-- C3 (amended): with a permission string in the request body, an
upstream 201 answers 202 with a message object naming the username, the
repository and the permission; an upstream 204 answers a bare 204; any
other upstream status is forwarded with the upstream body when that body
is non-empty and with a textual error naming the upstream status line when
it is empty (this last case is where the original forward-verbatim claim
fails, see the counterexample); and a body without a permission field is
rejected with 400. -/
theorem C3_post (owner repo username : String) (data : List (String × Json))
    (p : String) (hp : lookupField data "permission" = some (Json.str p)) :
    (∀ line b, repoPostServe owner repo username (some (Json.obj data))
        (UpstreamOutcome.resp 201 line b) =
      ⟨202, HttpBody.jsonDoc (Json.obj [("message", Json.str
        ("Invitation sent to user " ++ username ++ " for repository " ++
          owner ++ "/" ++ repo ++ " with permission " ++ p))])⟩) ∧
    (∀ line b, repoPostServe owner repo username (some (Json.obj data))
        (UpstreamOutcome.resp 204 line b) = ⟨204, HttpBody.empty⟩) ∧
    (∀ s line b, s ≠ 201 → s ≠ 204 → b.raw ≠ "" →
      repoPostServe owner repo username (some (Json.obj data))
        (UpstreamOutcome.resp s line b) = ⟨s, HttpBody.text b.raw⟩) ∧
    (∀ s line b, s ≠ 201 → s ≠ 204 → b.raw = "" →
      repoPostServe owner repo username (some (Json.obj data))
        (UpstreamOutcome.resp s line b) =
      ⟨s, HttpBody.text ("Error: " ++ line)⟩) ∧
    (∀ data2 : List (String × Json), lookupField data2 "permission" = none →
      ∀ up, ∃ m, repoPostServe owner repo username (some (Json.obj data2)) up =
        ⟨400, HttpBody.text m⟩) := by
  refine ⟨?_, ?_, ?_, ?_, ?_⟩
  · intro line b
    simp [repoPostServe, ReadFieldFromBody, hp, AddFieldToResponse, setField,
      goSprintS]
  · intro line b
    simp [repoPostServe, ReadFieldFromBody, hp]
  · intro s line b hs1 hs2 hraw
    simp [repoPostServe, ReadFieldFromBody, hp, hs1, hs2,
      length_pos_of_ne_empty b.raw hraw]
  · intro s line b hs1 hs2 hraw
    simp [repoPostServe, ReadFieldFromBody, hp, hs1, hs2, hraw]
  · intro data2 h2 up
    exact ⟨"Error reading permission from request body: " ++
        ("field " ++ "permission" ++ " not found"),
      by simp [repoPostServe, ReadFieldFromBody, h2]⟩

/-- C3 counterexample: an upstream 403 with an EMPTY body is answered with
status 403 but with the substituted body naming the upstream status line —
not with the (empty) upstream body forwarded verbatim. -/
theorem C3_counterexample :
    repoPostServe "krateo" "demo" "bob"
        (some (Json.obj [("permission", Json.str "push")]))
        (UpstreamOutcome.resp 403 "403 Forbidden" ⟨"", none⟩) =
      ⟨403, HttpBody.text "Error: 403 Forbidden"⟩ ∧
    HttpBody.text "Error: 403 Forbidden" ≠ HttpBody.text "" ∧
    HttpBody.text "Error: 403 Forbidden" ≠ HttpBody.empty := by
  refine ⟨rfl, ?_, ?_⟩
  · intro h
    have := HttpBody.text.inj h
    exact absurd this (by decide)
  · intro h
    exact HttpBody.noConfusion h

/-- C3 witness: concrete runs of all five clauses of the POST mapping. -/
theorem C3_post_witness :
    repoPostServe "krateo" "demo" "bob"
        (some (Json.obj [("permission", Json.str "push")]))
        (UpstreamOutcome.resp 201 "201 Created" ⟨"x", none⟩) =
      ⟨202, HttpBody.jsonDoc (Json.obj [("message", Json.str
        ("Invitation sent to user " ++ "bob" ++ " for repository " ++
          "krateo" ++ "/" ++ "demo" ++ " with permission " ++ "push"))])⟩ ∧
    repoPostServe "krateo" "demo" "bob"
        (some (Json.obj [("permission", Json.str "push")]))
        (UpstreamOutcome.resp 204 "204 No Content" ⟨"", none⟩) =
      ⟨204, HttpBody.empty⟩ ∧
    repoPostServe "krateo" "demo" "bob"
        (some (Json.obj [("permission", Json.str "push")]))
        (UpstreamOutcome.resp 422 "422 Unprocessable Entity" ⟨"err", none⟩) =
      ⟨422, HttpBody.text "err"⟩ ∧
    (∃ m, repoPostServe "krateo" "demo" "bob"
        (some (Json.obj [("perm", Json.str "push")]))
        (UpstreamOutcome.resp 204 "204 No Content" ⟨"", none⟩) =
      ⟨400, HttpBody.text m⟩) := by
  have h := C3_post "krateo" "demo" "bob"
    [("permission", Json.str "push")] "push" (by rfl)
  refine ⟨h.1 "201 Created" ⟨"x", none⟩, ?_, ?_, ?_⟩
  · exact h.2.1 "204 No Content" ⟨"", none⟩
  · exact h.2.2.1 422 "422 Unprocessable Entity" ⟨"err", none⟩
      (by decide) (by decide) (by decide)
  · exact h.2.2.2.2 [("perm", Json.str "push")] (by rfl)
      (UpstreamOutcome.resp 204 "204 No Content" ⟨"", none⟩)

/-- C7: a request body whose root permission field is a string comes out
with the permission field removed and a permissions string field holding
pull mapped to read, push mapped to write and any other value unchanged,
all other fields kept; a body without a permission field passes through
unchanged. -/
theorem C7_reverse_translation (data : List (String × Json)) :
    (∀ p, lookupField data "permission" = some (Json.str p) →
      ∃ out, CorrectGitHubUserPermissionsFieldReqBody (Json.obj data) =
          Except.ok (Json.obj out) ∧
        lookupField out "permission" = none ∧
        lookupField out "permissions" = some (Json.str
          (if p = "pull" then "read"
           else if p = "push" then "write" else p)) ∧
        (∀ k, k ≠ "permission" → k ≠ "permissions" →
          lookupField out k = lookupField data k)) ∧
    (lookupField data "permission" = none →
      CorrectGitHubUserPermissionsFieldReqBody (Json.obj data) =
        Except.ok (Json.obj data)) := by
  constructor
  · intro p hp
    refine ⟨removeField (setField data "permissions"
      (Json.str (translatePermissionReverse p))) "permission", ?_, ?_, ?_, ?_⟩
    · simp [CorrectGitHubUserPermissionsFieldReqBody, hp]
    · exact lookupField_removeField_self _ _
    · rw [lookupField_removeField_other _ _ _ (by decide),
        lookupField_setField_self, translatePermissionReverse_eq]
    · intro k hk1 hk2
      rw [lookupField_removeField_other _ _ _ hk1,
        lookupField_setField_other _ _ _ _ hk2]
  · intro hp
    simp [CorrectGitHubUserPermissionsFieldReqBody, hp]

/-- C7 witness: a body with permission pull and an unrelated field is
rewritten to permissions read with the permission field gone, and a body
without a permission field passes through. -/
theorem C7_reverse_translation_witness :
    (∃ out, CorrectGitHubUserPermissionsFieldReqBody
        (Json.obj [("permission", Json.str "pull"), ("x", Json.num 3)]) =
        Except.ok (Json.obj out) ∧
      lookupField out "permission" = none ∧
      lookupField out "permissions" = some (Json.str
        (if "pull" = "pull" then "read"
         else if "pull" = "push" then "write" else "pull")) ∧
      (∀ k, k ≠ "permission" → k ≠ "permissions" →
        lookupField out k =
          lookupField [("permission", Json.str "pull"), ("x", Json.num 3)] k)) ∧
    CorrectGitHubUserPermissionsFieldReqBody
        (Json.obj [("x", Json.num 3)]) =
      Except.ok (Json.obj [("x", Json.num 3)]) := by
  constructor
  · exact (C7_reverse_translation
      [("permission", Json.str "pull"), ("x", Json.num 3)]).1 "pull" (by rfl)
  · exact (C7_reverse_translation [("x", Json.num 3)]).2 (by rfl)

/-- C8 (amended): on a non-200 upstream status the teamRepo handler
forwards the status and echoes the upstream body with a trailing newline
appended by http.Error; on 200 the served object carries the path-supplied
owner, a permission derived from role_name by a CASE-INSENSITIVE
comparison (EqualFold) with read and write, no permissions key, and every
other root key unchanged.  The original claim fails on both the
case-sensitivity and the verbatim-body points, see the counterexample. -/
theorem C8_teamrepo (owner : String) :
    (∀ s line b, s ≠ 200 →
      teamRepoServe owner (UpstreamOutcome.resp s line b) =
        some ⟨s, HttpBody.text (b.raw ++ "\n")⟩) ∧
    (∀ line b data rn, b.decoded = some (Json.obj data) →
      lookupField data "role_name" = some (Json.str rn) →
      ∃ out, teamRepoServe owner (UpstreamOutcome.resp 200 line b) =
          some ⟨200, HttpBody.jsonDoc (Json.obj out)⟩ ∧
        lookupField out "owner" = some (Json.str owner) ∧
        lookupField out "permission" = some (Json.str
          (if eqFold rn "read" then "pull"
           else if eqFold rn "write" then "push" else rn)) ∧
        lookupField out "permissions" = none ∧
        (∀ k, k ≠ "owner" → k ≠ "permission" → k ≠ "permissions" →
          lookupField out k = lookupField data k)) := by
  constructor
  · intro s line b hs
    simp [teamRepoServe, hs]
  · intro line b data rn hdec hrn
    refine ⟨setField (setField (removeField (removeField data "permissions")
        "owner") "owner" (Json.str owner)) "permission" (Json.str
        (if eqFold rn "read" then "pull"
         else if eqFold rn "write" then "push" else rn)), ?_, ?_, ?_, ?_, ?_⟩
    · simp [teamRepoServe, hdec, hrn, teamRepoRewrite]
    · rw [lookupField_setField_other _ _ _ _ (by decide),
        lookupField_setField_self]
    · exact lookupField_setField_self _ _ _
    · rw [lookupField_setField_other _ _ _ _ (by decide),
        lookupField_setField_other _ _ _ _ (by decide),
        lookupField_removeField_other _ _ _ (by decide),
        lookupField_removeField_self]
    · intro k hk1 hk2 hk3
      rw [lookupField_setField_other _ _ _ _ hk2,
        lookupField_setField_other _ _ _ _ hk1,
        lookupField_removeField_other _ _ _ hk1,
        lookupField_removeField_other _ _ _ hk3]

/-- C8 counterexample: an upstream role_name READ (uppercase) yields the
permission pull, where the claim as stated requires the unrecognized value
READ to pass through; and a non-200 upstream body nf is echoed as nf plus
a newline, not verbatim. -/
theorem C8_counterexample :
    (∃ out, teamRepoServe "krateo"
        (UpstreamOutcome.resp 200 "200 OK"
          ⟨"raw", some (Json.obj [("role_name", Json.str "READ")])⟩) =
        some ⟨200, HttpBody.jsonDoc (Json.obj out)⟩ ∧
      lookupField out "permission" = some (Json.str "pull") ∧
      Json.str "pull" ≠ Json.str "READ") ∧
    teamRepoServe "krateo"
        (UpstreamOutcome.resp 404 "404 Not Found" ⟨"nf", none⟩) =
      some ⟨404, HttpBody.text ("nf" ++ "\n")⟩ ∧
    "nf" ++ "\n" ≠ "nf" := by
  refine ⟨⟨[("role_name", Json.str "READ"), ("owner", Json.str "krateo"),
      ("permission", Json.str "pull")], rfl, rfl, ?_⟩, rfl, by decide⟩
  intro h
  have := Json.str.inj h
  exact absurd this (by decide)

/-- C8 witness: concrete runs of the two clauses, with role_name write
mapped to push and a 403 body echoed with its newline. -/
theorem C8_teamrepo_witness :
    teamRepoServe "krateo" (UpstreamOutcome.resp 403 "403 Forbidden"
        ⟨"denied", none⟩) =
      some ⟨403, HttpBody.text ("denied" ++ "\n")⟩ ∧
    (∃ out, teamRepoServe "krateo" (UpstreamOutcome.resp 200 "200 OK"
          ⟨"raw", some (Json.obj [("role_name", Json.str "write"),
            ("permissions", Json.obj []), ("owner", Json.obj []),
            ("name", Json.str "repo1")])⟩) =
        some ⟨200, HttpBody.jsonDoc (Json.obj out)⟩ ∧
      lookupField out "owner" = some (Json.str "krateo") ∧
      lookupField out "permission" = some (Json.str
        (if eqFold "write" "read" then "pull"
         else if eqFold "write" "write" then "push" else "write")) ∧
      lookupField out "permissions" = none ∧
      (∀ k, k ≠ "owner" → k ≠ "permission" → k ≠ "permissions" →
        lookupField out k =
          lookupField [("role_name", Json.str "write"),
            ("permissions", Json.obj []), ("owner", Json.obj []),
            ("name", Json.str "repo1")] k)) := by
  constructor
  · exact (C8_teamrepo "krateo").1 403 "403 Forbidden" ⟨"denied", none⟩
      (by decide)
  · exact (C8_teamrepo "krateo").2 "200 OK"
      ⟨"raw", some (Json.obj [("role_name", Json.str "write"),
        ("permissions", Json.obj []), ("owner", Json.obj []),
        ("name", Json.str "repo1")])⟩
      [("role_name", Json.str "write"), ("permissions", Json.obj []),
        ("owner", Json.obj []), ("name", Json.str "repo1")]
      "write" rfl (by rfl)

/-- C9: a request body without a permission field is answered 500 by the
PATCH collaborator handler and 400 by the POST collaborator handler — the
same validation failure maps to different statuses. -/
theorem C9_missing_permission_statuses (owner repo username : String)
    (data : List (String × Json))
    (h : lookupField data "permission" = none)
    (env : PatchEnv) (up : UpstreamOutcome) :
    (∃ m, repoPatchServe owner repo username (some (Json.obj data)) env =
      some ⟨500, HttpBody.text m⟩) ∧
    (∃ m, repoPostServe owner repo username (some (Json.obj data)) up =
      ⟨400, HttpBody.text m⟩) := by
  constructor
  · exact ⟨"Error reading permission from request body: " ++
        ("field " ++ "permission" ++ " not found"),
      by simp [repoPatchServe, ReadFieldFromBody, h]⟩
  · exact ⟨"Error reading permission from request body: " ++
        ("field " ++ "permission" ++ " not found"),
      by simp [repoPostServe, ReadFieldFromBody, h]⟩

/-- C9 witness: a concrete body carrying only an unrelated field is
answered 500 by PATCH and 400 by POST. -/
theorem C9_missing_permission_statuses_witness :
    (∃ m, repoPatchServe "krateo" "demo" "bob"
        (some (Json.obj [("x", Json.num 1)]))
        ⟨UpstreamOutcome.resp 204 "204 No Content" ⟨"", none⟩,
         UpstreamOutcome.resp 204 "204 No Content" ⟨"", none⟩, [],
         UpstreamOutcome.resp 200 "200 OK" ⟨"", none⟩⟩ =
      some ⟨500, HttpBody.text m⟩) ∧
    (∃ m, repoPostServe "krateo" "demo" "bob"
        (some (Json.obj [("x", Json.num 1)]))
        (UpstreamOutcome.resp 201 "201 Created" ⟨"", none⟩) =
      ⟨400, HttpBody.text m⟩) :=
  C9_missing_permission_statuses "krateo" "demo" "bob" [("x", Json.num 1)]
    (by rfl)
    ⟨UpstreamOutcome.resp 204 "204 No Content" ⟨"", none⟩,
     UpstreamOutcome.resp 204 "204 No Content" ⟨"", none⟩, [],
     UpstreamOutcome.resp 200 "200 OK" ⟨"", none⟩⟩
    (UpstreamOutcome.resp 201 "201 Created" ⟨"", none⟩)

/-- C10: inbound validation of POST and PATCH only tests that a root key
named permission exists: any present value, null included, passes and the
request reaches the upstream exchange; a missing key or a body that does
not decode into an object is the only rejection. -/
theorem C10_presence_only_validation :
    (∀ data v, lookupField data "permission" = some v →
      ReadFieldFromBody (Json.obj data) "permission" = Except.ok v) ∧
    (∀ data, lookupField data "permission" = none →
      ∃ e, ReadFieldFromBody (Json.obj data) "permission" = Except.error e) ∧
    (∀ b : Json, (∀ data, b ≠ Json.obj data) →
      ∃ e, ReadFieldFromBody b "permission" = Except.error e) ∧
    (∀ owner repo username line,
      repoPostServe owner repo username
          (some (Json.obj [("permission", Json.null)]))
          (UpstreamOutcome.resp 204 line ⟨"", none⟩) =
        ⟨204, HttpBody.empty⟩) ∧
    (∀ owner repo username cline cb uline,
      repoPatchServe owner repo username
          (some (Json.obj [("permission", Json.null)]))
          ⟨UpstreamOutcome.resp 204 cline cb,
           UpstreamOutcome.resp 422 uline ⟨"e", none⟩, [],
           UpstreamOutcome.resp 200 "200 OK" ⟨"", none⟩⟩ =
        some ⟨422, HttpBody.text "e"⟩) := by
  refine ⟨?_, ?_, ?_, ?_, ?_⟩
  · intro data v hv
    simp [ReadFieldFromBody, hv]
  · intro data hnone
    exact ⟨"field " ++ "permission" ++ " not found",
      by simp [ReadFieldFromBody, hnone]⟩
  · intro b hb
    cases b with
    | obj data => exact absurd rfl (hb data)
    | null => exact ⟨_, rfl⟩
    | bool x => exact ⟨_, rfl⟩
    | num x => exact ⟨_, rfl⟩
    | str x => exact ⟨_, rfl⟩
    | arr x => exact ⟨_, rfl⟩
  · intro owner repo username line
    rfl
  · intro owner repo username cline cb uline
    simp [repoPatchServe, ReadFieldFromBody, lookupField]
    intro h
    exact absurd h (by decide)

/-- C10 witness: the null-valued permission body passes validation on both
verbs and triggers the upstream exchange, while a permission-free body is
rejected by the reader. -/
theorem C10_presence_only_validation_witness :
    ReadFieldFromBody (Json.obj [("permission", Json.null)]) "permission" =
      Except.ok Json.null ∧
    (∃ e, ReadFieldFromBody (Json.obj [("x", Json.num 1)]) "permission" =
      Except.error e) ∧
    (∃ e, ReadFieldFromBody (Json.arr []) "permission" = Except.error e) ∧
    repoPostServe "krateo" "demo" "bob"
        (some (Json.obj [("permission", Json.null)]))
        (UpstreamOutcome.resp 204 "204 No Content" ⟨"", none⟩) =
      ⟨204, HttpBody.empty⟩ ∧
    repoPatchServe "krateo" "demo" "bob"
        (some (Json.obj [("permission", Json.null)]))
        ⟨UpstreamOutcome.resp 204 "204 No Content" ⟨"", none⟩,
         UpstreamOutcome.resp 422 "422 Unprocessable Entity" ⟨"e", none⟩, [],
         UpstreamOutcome.resp 200 "200 OK" ⟨"", none⟩⟩ =
      some ⟨422, HttpBody.text "e"⟩ := by
  refine ⟨?_, ?_, ?_, ?_, ?_⟩
  · exact C10_presence_only_validation.1 [("permission", Json.null)]
      Json.null (by rfl)
  · exact C10_presence_only_validation.2.1 [("x", Json.num 1)] (by rfl)
  · exact C10_presence_only_validation.2.2.1 (Json.arr [])
      (fun data h => Json.noConfusion h)
  · exact C10_presence_only_validation.2.2.2.1 "krateo" "demo" "bob"
      "204 No Content"
  · exact C10_presence_only_validation.2.2.2.2 "krateo" "demo" "bob"
      "204 No Content" ⟨"", none⟩ "422 Unprocessable Entity"
